import Mathlib

/-!
Shallow embedding of the tietang/sqlx mapping engine (Go), covering:

* the fetch path: `fetchResult`, `fetchRow`, `fetchRows`, `reset`
  (sqlx_helper.go, third part of the file);
* `scanAll` / `Select` (sqlx_helper.go, first part);
* the marshal path: `Map`, `fieldValue` sorting, `insertTable`, `MustExec`
  (sqlx_db.go, first and second parts);
* the wrapper types `DB`, `Tx`, `Stmt` and their flag propagation
  (`Beginx`, `Preparex`, `Stmtx`, Stmt.go);
* the shared `mapper()` cache with its `origMapper` change detection.

Go machine-level conventions used throughout the embedding:

* fallible Go calls returning `(T, error)` become `Except Err T`;
* a Go runtime panic is a distinguished `Outcome.panics` result, separate
  from returned errors, because several claims are about abort behaviour;
* `reflect` values are represented by first-order descriptions of the only
  distinctions the source inspects (pointer-ness, nil-ness, kind of the
  pointed-to type, struct field tables);
* the Go field named `unsafe` (a Lean keyword) is rendered `relaxedMatching`.
-/

/-- Database cell values, as far as the engine distinguishes them. -/
inductive Val where
  | str (s : String)
  | intV (n : Int)
  | nullV
  | raw (n : Nat)
deriving DecidableEq

/-- Error values of the engine.  Each constructor corresponds to one error
produced in the source: the `Err...` package variables, the `fmt.Errorf`
sites in `scanAll`, driver-side scan/columns failures, and the marshal hook
failure.  Messages are carried abstractly where the source formats them. -/
inductive Err where
  /-- scanAll: "must pass a pointer, not a value, to StructScan destination" -/
  | errMustPassPointer
  /-- scanAll: "nil pointer passed to StructScan destination" -/
  | errNilPointer
  /-- package var ErrExpectingPointer -/
  | errExpectingPointer
  /-- package var ErrExpectingSlicePointer -/
  | errExpectingSlicePointer
  /-- package var ErrExpectingSliceMapStruct -/
  | errExpectingSliceMapStruct
  /-- package var ErrExpectingMapOrStruct -/
  | errExpectingMapOrStruct
  /-- package var ErrExpectingPointerToEitherMapOrStruct -/
  | errExpectingPointerToEitherMapOrStruct
  /-- upper.io/db.v3 ErrNoMoreRows, returned by fetchRow on an empty cursor -/
  | errNoMoreRows
  /-- package var errDeprecatedJSONBTag -/
  | errDeprecatedJSONBTag
  /-- scanAll line 160: fmt.Errorf("missing destination name %s in %T", ...) -/
  | missingDestinationName (col : String) (destType : String)
  /-- scanAll line 143: fmt.Errorf("non-struct dest type %s with >1 columns (%d)") -/
  | nonStructDest (kind : String) (cols : Nat)
  /-- an error returned by the driver from rows.Scan -/
  | scanFailure (msg : String)
  /-- an error returned by the driver from rows.Columns or rows.Err -/
  | driverErr (msg : String)
  /-- a db.Marshaler MarshalDB hook failure inside marshal() -/
  | marshalErr (msg : String)
  /-- Map: errors.New("is valid: " + itemV.String()) for an invalid value -/
  | mapIsValidErr (s : String)
  /-- an error returned by the executor from Exec -/
  | execErr (msg : String)
deriving DecidableEq

/-- Rendering of an error as text, used when a panic carries an error
(`panic(err)` in `MustExec`).  The exact Go strings are irrelevant to the
claims; only distinctness of error kinds matters. -/
def errText : Err → String
  | .errMustPassPointer => "must pass a pointer, not a value, to StructScan destination"
  | .errNilPointer => "nil pointer passed to StructScan destination"
  | .errExpectingPointer => "argument must be an address"
  | .errExpectingSlicePointer => "argument must be a slice address"
  | .errExpectingSliceMapStruct => "argument must be a slice address of maps or structs"
  | .errExpectingMapOrStruct => "argument must be either a map or a struct"
  | .errExpectingPointerToEitherMapOrStruct => "expecting a pointer to either a map or a struct"
  | .errNoMoreRows => "no more rows in this result set"
  | .errDeprecatedJSONBTag => "Tag jsonb is deprecated"
  | .missingDestinationName c t => "missing destination name " ++ c ++ " in " ++ t
  | .nonStructDest k n => "non-struct dest type " ++ k ++ " with >1 columns (" ++ toString n ++ ")"
  | .scanFailure m => m
  | .driverErr m => m
  | .marshalErr m => m
  | .mapIsValidErr s => "is valid: " ++ s
  | .execErr m => m

/-- The observable result of running a Go function that may return an error
or abort the process with a runtime panic. -/
inductive Outcome (α : Type) where
  | ok (a : α)
  | err (e : Err)
  | panics (msg : String)
deriving DecidableEq

/-- One entry of a reflectx field table (`reflectx.FieldInfo`), reduced to
what the fetch path inspects: the index traversal to the field and whether
the deprecated `jsonb` tag option is present. -/
structure FieldI where
  index : List Nat
  hasJsonb : Bool
deriving DecidableEq

/-- Destination element types, as far as `fetchResult` distinguishes them by
`reflect.Kind`: a struct with its field table (`TypeMap(itemT).Names`,
modelled as an association list keyed by column name), a map type (the flag
records whether the element type is `interface{}`), a pointer to another
type, or any other (base, directly-scannable) kind, carried by name. -/
inductive GoType where
  | structT (fm : List (String × FieldI))
  | mapT (elemInterface : Bool)
  | ptrTo (t : GoType)
  | base (kind : String)
deriving DecidableEq

/-- Lookup in a field table; models `fieldMap[k]` on the Go map
`typeMap.Names` (keys are unique in a Go map). -/
def lookupField : List (String × FieldI) → String → Option FieldI
  | [], _ => none
  | (n, fi) :: rest, c => if n = c then some fi else lookupField rest c

/-- Contents of a destination memory cell.  `zeroV t` is the zero value of
type `t` (what `reset` writes); `structItem` is a struct populated by a
scan, recorded as the assignment of scanned values to field traversals;
`mapItem` likewise for map destinations; `arbitraryV` stands for arbitrary
prior contents a caller left in the destination. -/
inductive ItemVal where
  | zeroV (t : GoType)
  | structItem (assigns : List (List Nat × Val))
  | mapItem (entries : List (String × Val))
  | arbitraryV (n : Nat)
deriving DecidableEq

instance {ε α : Type} [DecidableEq ε] [DecidableEq α] : DecidableEq (Except ε α) := fun x y =>
  match x, y with
  | .ok a, .ok b =>
    if h : a = b then isTrue (congrArg Except.ok h) else isFalse (fun he => h (Except.ok.inj he))
  | .error a, .error b =>
    if h : a = b then isTrue (congrArg Except.error h)
    else isFalse (fun he => h (Except.error.inj he))
  | .ok _, .error _ => isFalse (fun he => Except.noConfusion he)
  | .error _, .ok _ => isFalse (fun he => Except.noConfusion he)

/-- A cursor (`*sql.Rows`) script: the result of `Columns()`, the sequence
of rows (`Next` succeeds while rows remain; `Scan` on a row either fails
with a driver conversion error or yields one value per column), and the
terminal `Err()` value observed after the cursor is exhausted. -/
structure Cursor where
  columnsRes : Except Err (List String)
  rows : List (Except Err (List Val))
  errAfter : Option Err
deriving DecidableEq

/-- First loop of the struct branch of `fetchResult` (sqlx_helper.go
655-670): walk the columns in order; an unmapped column gets a throwaway
slot (`new(interface{})`, recorded as `none`), a mapped column whose field
carries the deprecated `jsonb` option aborts with `errDeprecatedJSONBTag`,
and an ordinarily mapped column gets the slot at its field traversal. -/
def collectSlots (fm : List (String × FieldI)) : List String → Except Err (List (Option (List Nat)))
  | [] => .ok []
  | c :: cs =>
    match lookupField fm c with
    | none =>
      match collectSlots fm cs with
      | .error e => .error e
      | .ok rest => .ok (none :: rest)
    | some fi =>
      if fi.hasJsonb then .error .errDeprecatedJSONBTag
      else
        match collectSlots fm cs with
        | .error e => .error e
        | .ok rest => .ok (some fi.index :: rest)

/-- Combine slots with the values the driver scanned into them: values in
throwaway slots are dropped, values in field slots become field
assignments of the freshly allocated struct. -/
def mkAssigns : List (Option (List Nat)) → List Val → List (List Nat × Val)
  | [], _ => []
  | _ :: _, [] => []
  | none :: ss, _ :: vs => mkAssigns ss vs
  | some ix :: ss, v :: vs => (ix, v) :: mkAssigns ss vs

/-- Struct branch of `fetchResult` (sqlx_helper.go 649-674): build the slot
list, then `rows.Scan(values...)`.  The driver rejects a scan whose
destination count differs from the column count (database/sql), hence the
length guard. -/
def fetchStruct (fm : List (String × FieldI)) (columns : List String)
    (row : Except Err (List Val)) : Except Err ItemVal :=
  match collectSlots fm columns with
  | .error e => .error e
  | .ok slots =>
    match row with
    | .error e => .error e
    | .ok vals =>
      if vals.length = columns.length then .ok (.structItem (mkAssigns slots vals))
      else .error (.scanFailure "sql: expected unequal number of scan destinations")

/-- Map branch of `fetchResult` (sqlx_helper.go 675-698): every column gets
a fresh slot, the row is scanned, and each column/value pair is written
into the freshly made map with `SetMapIndex`. -/
def fetchMap (columns : List String) (row : Except Err (List Val)) : Except Err ItemVal :=
  match row with
  | .error e => .error e
  | .ok vals =>
    if vals.length = columns.length then .ok (.mapItem (columns.zip vals))
    else .error (.scanFailure "sql: expected unequal number of scan destinations")

/-- Model of `fetchResult` (sqlx_helper.go 627-701).  The first switch allocates the
item and rejects non-map, non-struct destinations (a pointer destination is
dereferenced once and its element must be a struct); the second switch
fills the item from the current row. -/
def fetchResult (itemT : GoType) (columns : List String)
    (row : Except Err (List Val)) : Except Err ItemVal :=
  match itemT with
  | .mapT _ => fetchMap columns row
  | .structT fm => fetchStruct fm columns row
  | .ptrTo objT =>
    match objT with
    | .structT fm => fetchStruct fm columns row
    | _ => .error .errExpectingMapOrStruct
  | .base _ => .error .errExpectingMapOrStruct

/-- What the destination argument of `fetchRow`/`fetchRows` looks like
through `reflect`: the source evaluates `dstv.IsNil() || dstv.Kind() != reflect.Ptr`,
and `Value.IsNil` panics for kinds that are not nil-able (int, struct,
string, a zero `reflect.Value`, ...), before the kind test runs. -/
inductive Hdr where
  /-- not a pointer, of a kind on which `IsNil` panics (e.g. plain int) -/
  | notPtrNonNilable (kind : String)
  /-- not a pointer, but a nil-able kind (map, slice, chan, func) -/
  | notPtrNilable
  /-- a nil pointer -/
  | nilPtr
  /-- a valid non-nil pointer -/
  | ptr
deriving DecidableEq

/-- Model of `fetchRow` (sqlx_helper.go 536-577) as a function of the cursor, the
shape of the `dst` argument, the pointed-to type, and the prior contents of
the destination cell.  Returns the Go outcome together with the final
contents of the destination cell.  Source order: pointer check, `Columns`,
`reset(dst)`, `Next`, `fetchResult`, assignment on success. -/
def fetchRow (cur : Cursor) (hdr : Hdr) (elemT : GoType) (prior : ItemVal) :
    Outcome Unit × ItemVal :=
  match hdr with
  | .notPtrNonNilable k =>
    (.panics ("reflect: call of reflect.Value.IsNil on " ++ k ++ " Value"), prior)
  | .notPtrNilable => (.err .errExpectingPointer, prior)
  | .nilPtr => (.err .errExpectingPointer, prior)
  | .ptr =>
    match cur.columnsRes with
    | .error e => (.err e, prior)
    | .ok columns =>
      -- reset(dst): the destination now holds the zero value of its type
      match cur.rows with
      | [] =>
        match cur.errAfter with
        | some e => (.err e, .zeroV elemT)
        | none => (.err .errNoMoreRows, .zeroV elemT)
      | row :: _ =>
        match fetchResult elemT columns row with
        | .error e => (.err e, .zeroV elemT)
        | .ok item => (.ok (), item)

/-- The row loop of `fetchRows` (sqlx_helper.go 610-624): one `fetchResult`
per remaining row, appending to the slice value; after the loop the
accumulated slice is stored through the pointer and `rows.Err()` is
returned.  A mid-loop error returns before the store, leaving the
destination as `reset` made it: the empty slice. -/
def fetchRowsLoop (elemT : GoType) (columns : List String) (errAfter : Option Err) :
    List (Except Err (List Val)) → List ItemVal → Outcome Unit × List ItemVal
  | [], acc =>
    -- dstv.Elem().Set(slicev) runs before `return rows.Err()`
    match errAfter with
    | some e => (.err e, acc)
    | none => (.ok (), acc)
  | row :: rest, acc =>
    match fetchResult elemT columns row with
    | .error _e => (.err _e, [])
    | .ok item => fetchRowsLoop elemT columns errAfter rest (acc ++ [item])

/-- Destination shapes `fetchRows` (sqlx_helper.go 581-625) distinguishes:
after the pointer checks (same `IsNil`-first order as `fetchRow`), the
pointed-to value must be a slice. -/
inductive SliceHdr where
  | notPtrNonNilable (kind : String)
  | notPtrNilable
  | nilPtr
  /-- non-nil pointer, but the element is not a slice -/
  | ptrToNonSlice
  /-- non-nil pointer to a slice with the given element type -/
  | ptrToSlice
deriving DecidableEq

/-- Model of `fetchRows`: Go outcome plus the final contents of the destination
slice.  Source order: pointer checks, slice check, `Columns`, `reset(dst)`
(empty slice), the row loop, final store and `rows.Err()`. -/
def fetchRows (cur : Cursor) (hdr : SliceHdr) (elemT : GoType) (prior : List ItemVal) :
    Outcome Unit × List ItemVal :=
  match hdr with
  | .notPtrNonNilable k =>
    (.panics ("reflect: call of reflect.Value.IsNil on " ++ k ++ " Value"), prior)
  | .notPtrNilable => (.err .errExpectingPointer, prior)
  | .nilPtr => (.err .errExpectingPointer, prior)
  | .ptrToNonSlice => (.err .errExpectingSlicePointer, prior)
  | .ptrToSlice =>
    match cur.columnsRes with
    | .error e => (.err e, prior)
    | .ok columns =>
      -- reset(dst): the destination slice is now empty
      fetchRowsLoop elemT columns cur.errAfter cur.rows []

example :
    fetchRow ⟨.ok ["id"], [], none⟩ .ptr (.structT [("id", ⟨[0], false⟩)]) (.arbitraryV 3)
      = (.err .errNoMoreRows, .zeroV (.structT [("id", ⟨[0], false⟩)])) := by decide

example :
    fetchRow ⟨.ok ["id", "extra"], [.ok [.intV 7, .str "x"]], none⟩ .ptr
        (.structT [("id", ⟨[0], false⟩)]) (.arbitraryV 3)
      = (.ok (), .structItem [([0], .intV 7)]) := by decide

example :
    fetchRows ⟨.ok ["id"], [.ok [.intV 1], .ok [.intV 2]], none⟩ .ptrToSlice
        (.structT [("id", ⟨[0], false⟩)]) [.arbitraryV 9]
      = (.ok (), [.structItem [([0], .intV 1)], .structItem [([0], .intV 2)]]) := by decide

/-! ## scanAll and Select (sqlx_helper.go, first part) -/

/-- The `dest` argument of `scanAll` as seen through `reflect`:
`reflect.ValueOf(dest)` is first tested with `Kind() != reflect.Ptr`, then
with `IsNil()`; a valid destination is a non-nil pointer, and the model
records the pointed-to type and prior contents for completeness. -/
inductive Dst where
  | notPtr (kind : String)
  | nilPtr
  | valid (pointee : GoType) (prior : ItemVal)
deriving DecidableEq

/-- The `sqlx.Rows` wrapper around a cursor: carries the safety flag (Go
field `unsafe`) and the mapper in use. -/
structure RowsM where
  cur : Cursor
  relaxedMatching : Bool
  mapperId : Nat
deriving DecidableEq

/-- Model of `scanAll` (sqlx_helper.go 103-203).  After the pointer and nil checks,
line 117 evaluates `v.Elem()` where `v` is the zero `reflect.Value`
declared at line 104 and never assigned; `reflect.Value.Elem` panics for a
zero Value, so every call with a valid destination aborts.  Everything from
line 117 on — the dispatch to `fetchRows`/`fetchRow`, and the original
implementation after the unconditional `return` at line 121 (base-type
column-count check at 141-144, missing-field check at 156-161, the row
loop) — is unreachable. -/
def scanAll (_r : RowsM) (dest : Dst) (_structOnly : Bool) : Outcome Unit :=
  match dest with
  | .notPtr _ => .err .errMustPassPointer
  | .nilPtr => .err .errNilPointer
  | .valid _ _ => .panics "reflect: call of reflect.Value.Elem on zero Value"

/-- Model of `missingFields` (sqlx_helper.go 256-263): the index of the first empty
traversal, or an error-free 0.  Reachable only from the dead portion of
`scanAll`; embedded because claim C1 names it. -/
def missingFields : List (List Nat) → Nat × Bool
  | [] => (0, false)
  | t :: ts =>
    if t.isEmpty then (0, true)
    else
      match missingFields ts with
      | (i, found) => if found then (i + 1, true) else (0, false)

/-- Model of `Select` (sqlx_helper.go 304-312): run the query, then `scanAll` with
`structOnly = false`; a query error is returned as-is. -/
def Select (queryRes : Except Err RowsM) (dest : Dst) : Outcome Unit :=
  match queryRes with
  | .error e => .err e
  | .ok r => scanAll r dest false

/-! ## Wrapper objects and safety-flag propagation (sqlx_db.go, Stmt.go) -/

/-- The `sqlx.DB` wrapper.  Go field `unsafe` is rendered
`relaxedMatching` (`unsafe` is a Lean keyword). -/
structure DBm where
  driverName : String
  relaxedMatching : Bool
  mapperId : Nat
deriving DecidableEq

/-- The `sqlx.Tx` wrapper. -/
structure Txm where
  driverName : String
  relaxedMatching : Bool
  mapperId : Nat
deriving DecidableEq

/-- The `sqlx.Stmt` wrapper. -/
structure Stmtm where
  relaxedMatching : Bool
  mapperId : Nat
deriving DecidableEq

/-- Model of `DB.Beginx` (sqlx_db.go 108-114): on success the transaction copies the
connection's driver name, safety flag and mapper.  `beginRes` abstracts the
underlying `sql.DB.Begin` call. -/
def Beginx (db : DBm) (beginRes : Except Err Unit) : Except Err Txm :=
  match beginRes with
  | .error e => .error e
  | .ok _ => .ok ⟨db.driverName, db.relaxedMatching, db.mapperId⟩

/-- Model of `DB.Unsafe` (sqlx_db.go 63-65). -/
def DBUnsafeVariant (db : DBm) : DBm :=
  ⟨db.driverName, true, db.mapperId⟩

/-- Model of `Tx.Unsafe` (sqlx_db.go 386-388). -/
def TxUnsafeVariant (tx : Txm) : Txm :=
  ⟨tx.driverName, true, tx.mapperId⟩

/-- A `Preparer` (sqlx_helper.go 462-464) as far as `Preparex` inspects it
through `isUnsafe` and `mapperFor`: either a `*DB` or a `*Tx` (the other
`isUnsafe` cases carry no `Prepare` method in the source). -/
inductive PreparerM where
  | pdb (d : DBm)
  | ptx (t : Txm)
deriving DecidableEq

/-- Model of `isUnsafe` (sqlx_helper.go 467-502) restricted to preparers. -/
def isRelaxed : PreparerM → Bool
  | .pdb d => d.relaxedMatching
  | .ptx t => t.relaxedMatching

/-- Model of `mapperFor` (sqlx_helper.go 504-517) restricted to preparers: both the
DB and Tx cases return the wrapper's own mapper. -/
def mapperForM : PreparerM → Nat
  | .pdb d => d.mapperId
  | .ptx t => t.mapperId

/-- Model of `Preparex` (sqlx_helper.go 291-297): on success the statement's flag is
`isUnsafe(p)` and its mapper is `mapperFor(p)`. -/
def Preparex (p : PreparerM) (prepRes : Except Err Unit) : Except Err Stmtm :=
  match prepRes with
  | .error e => .error e
  | .ok _ => .ok ⟨isRelaxed p, mapperForM p⟩

/-- The `stmt interface{}` argument of `Tx.Stmtx` (sqlx_db.go 450-463). -/
inductive StmtArg where
  | stmtV (s : Stmtm)
  | stmtP (s : Stmtm)
  | rawStmt
  | nonStatement (kind : String)
deriving DecidableEq

/-- Model of `Tx.Stmtx` (sqlx_db.go 450-463): builds
`&Stmt{Stmt: tx.Stmt(s), Mapper: tx.Mapper}` — the `unsafe` field is
omitted from the composite literal, so the result carries the Go zero
value `false` whatever the transaction's flag; a non-statement argument
panics. -/
def Stmtx (tx : Txm) (s : StmtArg) : Outcome Stmtm :=
  match s with
  | .stmtV _ => .ok ⟨false, tx.mapperId⟩
  | .stmtP _ => .ok ⟨false, tx.mapperId⟩
  | .rawStmt => .ok ⟨false, tx.mapperId⟩
  | .nonStatement k => .panics ("non-statement type " ++ k ++ " passed to Stmtx")

/-! ## The shared mapper cache (sqlx_helper.go 376-403) -/

/-- A `reflectx.Mapper` instance: `buildId` is the allocation identity of
the `NewMapperFunc` result, `foldFn` the identity of the name-fold function
it was built with. -/
structure Mpr where
  buildId : Nat
  foldFn : Nat
deriving DecidableEq

/-- The package-level state around `mapper()`: the current `NameMapper`
(identified, as the source does via `reflect.ValueOf`, by function
identity), the stored `origMapper` identity, the cached `mpr`, and a
counter supplying fresh allocation identities. -/
structure MprState where
  nameMapper : Nat
  origMapper : Nat
  mpr : Option Mpr
  ctr : Nat
deriving DecidableEq

/-- Package initialization: `origMapper = reflect.ValueOf(NameMapper)` with
`NameMapper = strings.ToLower` (identity `f`), `mpr = nil`. -/
def initMprState (f : Nat) : MprState := ⟨f, f, none, 0⟩

/-- An application assigning a new function to the package variable
`NameMapper`. -/
def setNameMapper (s : MprState) (f : Nat) : MprState := { s with nameMapper := f }

/-- Model of `mapper()` (sqlx_helper.go 391-403): if the cache is empty, build from
the current `NameMapper` (note: `origMapper` is *not* updated); otherwise
rebuild exactly when `origMapper != reflect.ValueOf(NameMapper)`, updating
`origMapper`; otherwise return the cached instance. -/
def mapperCall (s : MprState) : MprState × Mpr :=
  match s.mpr with
  | none =>
    let m : Mpr := ⟨s.ctr, s.nameMapper⟩
    ({ s with mpr := some m, ctr := s.ctr + 1 }, m)
  | some m =>
    if s.origMapper ≠ s.nameMapper then
      let m2 : Mpr := ⟨s.ctr, s.nameMapper⟩
      ({ s with mpr := some m2, origMapper := s.nameMapper, ctr := s.ctr + 1 }, m2)
    else (s, m)

/-! ## The marshal path: Map and friends (sqlx_db.go, second part) -/

/-- Model of `MapOptions` (sqlx_db.go 186-189). -/
structure MapOptions where
  includeZeroed : Bool
  includeNil : Bool
deriving DecidableEq

/-- Model of `defaultMapOptions` (sqlx_db.go 191-194). -/
def defaultMapOptions : MapOptions := ⟨false, false⟩

/-- The shape of one struct field's current value, as far as the struct
branch of `Map` (sqlx_db.go 255-302) distinguishes it:

* `nilPtr` — `fld.Kind() == reflect.Ptr && fld.IsNil()` (lines 261-272);
* `plain isZero` — every other value; `isZero` is the result of the
  three-step zero test of lines 276-287 (custom `IsZero()` hook if present,
  else zero length for arrays/slices, else `reflect.DeepEqual` with the
  field type's zero value). -/
inductive FKind where
  | nilPtr
  | plain (isZero : Bool)
deriving DecidableEq

/-- One field as `Map` walks it: its column name (`fi.Name`), whether its
tag carries `omitempty` (`fi.Options["omitempty"]`), the shape of its
current value, and the result of `marshal(value)` — the `db.Marshaler`
hook applied to the value (the identity `.ok value` for plain values). -/
structure FieldM where
  name : String
  omitempty : Bool
  fkind : FKind
  marshalled : Except Err Val
deriving DecidableEq

/-- The per-field body of the struct loop of `Map` (sqlx_db.go 255-302):
`.ok none` means the field is skipped, `.ok (some (n, v))` that the pair is
appended to `fv`, `.error` that `Map` aborts. -/
def processField (opts : MapOptions) (fi : FieldM) : Except Err (Option (String × Val)) :=
  match fi.fkind with
  | .nilPtr =>
    if fi.omitempty && !opts.includeNil then .ok none
    else .ok (some (fi.name, if fi.omitempty then Val.str "" else Val.nullV))
  | .plain isZero =>
    if isZero && fi.omitempty && !opts.includeZeroed then .ok none
    else
      match fi.marshalled with
      | .error e => .error e
      | .ok v => .ok (some (fi.name, if isZero && fi.omitempty then Val.str "" else v))

/-- Collect the emitted `(name, value)` pairs of a walk, in walk order,
aborting on the first per-element error; shared shape of the struct loop
(with `processField`) and the map-source loop of `Map`. -/
def collectPairs (g : α → Except Err (Option (String × Val))) :
    List α → Except Err (List (String × Val))
  | [] => .ok []
  | a :: rest =>
    match g a with
    | .error e => .error e
    | .ok none => collectPairs g rest
    | .ok (some p) =>
      match collectPairs g rest with
      | .error e => .error e
      | .ok ps => .ok (p :: ps)

/-- The per-entry body of the map branch of `Map` (sqlx_db.go 304-320): the
key is already a string (`fmt.Sprintf` of the key), the value goes through
`marshal`, every entry is emitted. -/
def mapEntry (e : String × Except Err Val) : Except Err (Option (String × Val)) :=
  match e.2 with
  | .error err => .error err
  | .ok v => .ok (some (e.1, v))

/-- The strict comparison of `fieldValue.Less` (sqlx_db.go 354-356):
`fv.fields[i] < fv.fields[j]`.  Go compares strings byte-wise; UTF-8 byte
order coincides with code-point lexicographic order, i.e. the lexicographic
order on the character list `String.data`. -/
def pairLT (p q : String × Val) : Prop := p.1.data < q.1.data

/-- The matching reflexive order on pairs, used to state sortedness. -/
def pairLE (p q : String × Val) : Prop := p.1.data ≤ q.1.data

instance : DecidableRel pairLT := fun p q => inferInstanceAs (Decidable (p.1.data < q.1.data))

instance : DecidableRel pairLE := fun p q => inferInstanceAs (Decidable (p.1.data ≤ q.1.data))

instance : IsTotal (String × Val) pairLE := ⟨fun p q => le_total p.1.data q.1.data⟩

instance : IsTrans (String × Val) pairLE := ⟨fun _ _ _ h1 h2 => le_trans h1 h2⟩

instance : IsAntisymm (String × Val) pairLT :=
  ⟨fun _ _ h1 h2 => absurd h1 (lt_asymm h2)⟩

/-- Model of `sort.Sort(&fv)` (sqlx_db.go 325): `fieldValue.Swap` exchanges names
and values in lockstep, so the sort permutes the `(name, value)` pairs into
an order sorted by `Less`, i.e. by column name.  Go's sort is an
unspecified (unstable) sorting algorithm; insertion sort is one sorted
permutation, and the theorems below rely only on sortedness and
permutation, plus uniqueness of the sorted order when names are distinct. -/
def sortPairs (ps : List (String × Val)) : List (String × Val) :=
  List.insertionSort pairLE ps

/-- Model of `snakeCasedName` (sqlx_db.go 209-222), one rune at a time: an upper
case letter is lowercased and, except in first position, preceded by an
underscore. -/
def snakeChars : List Char → Bool → List Char
  | [], _ => []
  | c :: cs, isFirst =>
    (if 'A' ≤ c ∧ c ≤ 'Z' then
      -- chr -= ('A' - 'a'), i.e. chr += 32: lowercase the letter
      (if isFirst then [] else ['_']) ++ [Char.ofNat (c.toNat + ('a'.toNat - 'A'.toNat))]
    else [c]) ++ snakeChars cs false

def snakeCasedName (s : String) : String := ⟨snakeChars s.data true⟩

/-- The `item` argument of `Map` (sqlx_db.go 225-328) after the single
pointer dereference of lines 238-244, as far as the kind switch
distinguishes it.  `typeName` is `itemV.Type().Name()`.  A struct source
carries its walked field list in the iteration order of the Go map
`mapper().TypeMap(itemT).Names` — an order the Go runtime chooses
arbitrarily, which is why the determinism theorems quantify over
permutations.  A map source carries its entries in `MapKeys()` order,
equally arbitrary. -/
inductive MapSource where
  | structS (typeName : String) (fields : List FieldM)
  | mapS (typeName : String) (entries : List (String × Except Err Val))
  | nilSource
  | otherKind (typeName : String) (kind : String)
deriving DecidableEq

/-- Model of `Map` (sqlx_db.go 225-328): returns the snake-cased type name and the
name/value columns, sorted by name.  An invalid (`nil`) item fails the
`IsValid` check of line 232; a non-struct, non-map kind hits the default
branch of line 321. -/
def Map (src : MapSource) (optionsArg : Option MapOptions) : Except Err (String × List String × List Val) :=
  let _opts := optionsArg.getD defaultMapOptions
  match src with
  | .nilSource => .error (.mapIsValidErr "<invalid Value>")
  | .otherKind _ _ => .error .errExpectingPointerToEitherMapOrStruct
  | .structS tn fs =>
    match collectPairs (processField _opts) fs with
    | .error e => .error e
    | .ok ps =>
      let sps := sortPairs ps
      .ok (snakeCasedName tn, sps.map Prod.fst, sps.map Prod.snd)
  | .mapS tn es =>
    match collectPairs mapEntry es with
    | .error e => .error e
    | .ok ps =>
      let sps := sortPairs ps
      .ok (snakeCasedName tn, sps.map Prod.fst, sps.map Prod.snd)

/-- The pre-sort pair list `fv` of a `Map` run, used to state that sorting
keeps each value paired with its name. -/
def builtPairs (src : MapSource) (optionsArg : Option MapOptions) :
    Except Err (List (String × Val)) :=
  let _opts := optionsArg.getD defaultMapOptions
  match src with
  | .nilSource => .error (.mapIsValidErr "<invalid Value>")
  | .otherKind _ _ => .error .errExpectingPointerToEitherMapOrStruct
  | .structS _ fs => collectPairs (processField _opts) fs
  | .mapS _ es => collectPairs mapEntry es

/-! ## MustExec, insertTable, Insert (sqlx_helper.go 349-357, sqlx_db.go 149-172) -/

/-- The result of a successful `Exec`. -/
structure SqlResult where
  resId : Nat
deriving DecidableEq

/-- Model of `MustExec` (sqlx_helper.go 349-357): `panic(err)` on an exec error. -/
def MustExec (execRes : Except Err SqlResult) : Outcome SqlResult :=
  match execRes with
  | .error e => .panics (errText e)
  | .ok r => .ok r

/-- The insert statement text built by `insertTable` (sqlx_db.go 166-169):
`strings.Join` of the names and one `?,` placeholder per column with the
trailing comma sliced off. -/
def insertQuery (tableName : String) (columnNames : List String) : String :=
  "insert into " ++ tableName ++ "(" ++ String.intercalate "," columnNames ++ ") values(" ++
    (String.join (List.replicate columnNames.length "?,")).dropRight 1 ++ ")"

/-- Model of `insertTable` (sqlx_db.go 165-172).  With zero columns,
`strings.Repeat("?,", 0)` is empty and `placeholders[:len(placeholders)-1]`
is the out-of-range slice `[:−1]`: a runtime panic.  Otherwise the query is
executed through `MustExec`, which panics on an exec error; the declared
error result is always `nil` (`return MustExec(...), nil`).  `exec`
abstracts the executor contract: the statement text to its result. -/
def insertTable (tableName : String) (columnNames : List String) (_columnValues : List Val)
    (exec : String → Except Err SqlResult) : Outcome SqlResult :=
  if columnNames.isEmpty then .panics "runtime error: slice bounds out of range"
  else MustExec (exec (insertQuery tableName columnNames))

/-- Model of `DB.Insert` (sqlx_db.go 149-155): `Map` with `nil` options, then
`insertTable` under the derived table name; a `Map` error is returned. -/
def dbInsert (src : MapSource) (exec : String → Except Err SqlResult) : Outcome SqlResult :=
  match Map src none with
  | .error e => .err e
  | .ok (name, columnNames, columnValues) => insertTable name columnNames columnValues exec

example :
    Map (.structS "Person" [⟨"id", false, .plain false, .ok (.intV 7)⟩,
        ⟨"name", false, .plain false, .ok (.str "ann")⟩]) none
      = .ok ("person", ["id", "name"], [.intV 7, .str "ann"]) := by decide

example :
    Map (.structS "T" [⟨"tag", true, .plain true, .ok (.str "")⟩]) (some ⟨false, false⟩)
      = .ok ("t", [], []) := by decide

example :
    Map (.structS "T" [⟨"tag", true, .plain true, .ok (.str "")⟩]) (some ⟨true, false⟩)
      = .ok ("t", ["tag"], [.str ""]) := by decide

example : snakeCasedName "UserId" = "user_id" := by decide

/-! ## Claims about the scan path -/

/-- Claim C1 (code evaluated at the failing input): the missing-field policy
— "safety flag unset plus an unmapped column fails with a descriptive error
naming the column and destination type; safety flag set discards unmapped
columns and succeeds" — does not govern any reachable scan.  At the claimed
failing input (flag unset, columns `id, extra`, destination struct with the
single field `id`) `scanAll` panics on the zero `reflect.Value` before the
missing-field check at sqlx_helper.go 156-161 can run, and in the live
fetch path `fetchResult` (which takes no flag) scans the unmapped column
`extra` into a throwaway slot and succeeds for the mapped column. -/
theorem C1_missing_field_policy_dead :
    scanAll ⟨⟨.ok ["id", "extra"], [.ok [.intV 7, .str "x"]], none⟩, false, 0⟩
        (.valid (.structT [("id", ⟨[0], false⟩)]) (.arbitraryV 0)) false
      = .panics "reflect: call of reflect.Value.Elem on zero Value" ∧
    scanAll ⟨⟨.ok ["id", "extra"], [.ok [.intV 7, .str "x"]], none⟩, false, 0⟩
        (.valid (.structT [("id", ⟨[0], false⟩)]) (.arbitraryV 0)) false
      ≠ .err (.missingDestinationName "extra" "*[]sqlx.Person") ∧
    fetchResult (.structT [("id", ⟨[0], false⟩)]) ["id", "extra"] (.ok [.intV 7, .str "x"])
      = .ok (.structItem [([0], .intV 7)]) := by decide

/-- Claim C2 (code evaluated at the failing inputs): the core operations do
abort the process.  `scanAll` — and hence `Select` — panics for every
valid (non-nil pointer) destination, because line 117 calls `Elem` on the
zero `reflect.Value` `v`; and `insertTable` — the body of `Insert` —
routes execution through `MustExec`, which panics whenever the executor
returns an error. -/
theorem C2_core_ops_abort :
    (∀ (r : RowsM) (t : GoType) (prior : ItemVal) (b : Bool),
        scanAll r (.valid t prior) b
          = .panics "reflect: call of reflect.Value.Elem on zero Value") ∧
    (∀ (r : RowsM) (t : GoType) (prior : ItemVal),
        Select (.ok r) (.valid t prior)
          = .panics "reflect: call of reflect.Value.Elem on zero Value") ∧
    (∀ (tn : String) (ns : List String) (vs : List Val)
        (exec : String → Except Err SqlResult) (e : Err),
        ns ≠ [] → exec (insertQuery tn ns) = .error e →
        insertTable tn ns vs exec = .panics (errText e)) := by
  refine ⟨fun _ _ _ _ => rfl, fun _ _ _ => rfl, fun tn ns vs exec e hne hex => ?_⟩
  cases ns with
  | nil => exact absurd rfl hne
  | cons a l => simp [insertTable, MustExec, hex]

/-- Witness for C2: the two abort behaviours at concrete inputs. -/
theorem C2_core_ops_abort_witness :
    scanAll ⟨⟨.ok ["id"], [], none⟩, false, 0⟩ (.valid (.base "int") (.arbitraryV 0)) false
        = .panics "reflect: call of reflect.Value.Elem on zero Value" ∧
    insertTable "person" ["id"] [.intV 7] (fun _ => .error (.execErr "duplicate key"))
        = .panics (errText (.execErr "duplicate key")) :=
  ⟨C2_core_ops_abort.1 ⟨⟨.ok ["id"], [], none⟩, false, 0⟩ (.base "int") (.arbitraryV 0) false,
   C2_core_ops_abort.2.2 "person" ["id"] [.intV 7] (fun _ => .error (.execErr "duplicate key"))
     (.execErr "duplicate key") (by decide) rfl⟩

/-- Claim C4, counterexample: a directly-scannable destination (`int`)
scanned against the columns `id, name` with one row does not fail with the
ColumnCountMismatch error of sqlx_helper.go 143 (that check is
unreachable); the live path fails with `ErrExpectingMapOrStruct`. -/
theorem C4_counterexample :
    (fetchRow ⟨.ok ["id", "name"], [.ok [.intV 7, .str "ann"]], none⟩ .ptr
        (.base "int") (.arbitraryV 0)).1 = .err .errExpectingMapOrStruct ∧
    (fetchRow ⟨.ok ["id", "name"], [.ok [.intV 7, .str "ann"]], none⟩ .ptr
        (.base "int") (.arbitraryV 0)).1 ≠ .err (.nonStructDest "int" 2) := by decide

/-- Claim C4 — amended: a directly-scannable (non-struct, non-map)
destination type makes `fetchResult` fail with `ErrExpectingMapOrStruct`
regardless of the column list (also with exactly one column); the same
holds for a pointer to such a type. -/
theorem C4_amended (b : String) (cols : List String) (row : Except Err (List Val)) :
    fetchResult (.base b) cols row = .error .errExpectingMapOrStruct ∧
    fetchResult (.ptrTo (.base b)) cols row = .error .errExpectingMapOrStruct :=
  ⟨rfl, rfl⟩

/-- Claim C5: a single-row fetch whose cursor yields no row and no cursor
error returns the distinguished no-rows error (`db.ErrNoMoreRows`), which
is distinct from `scanFailure` and from every other error kind of the
engine, so callers can branch on "not found". -/
theorem C5_getOne_noRows (cur : Cursor) (elemT : GoType) (prior : ItemVal)
    (cols : List String) (hcols : cur.columnsRes = .ok cols)
    (hrows : cur.rows = []) (herr : cur.errAfter = none) :
    (fetchRow cur .ptr elemT prior).1 = .err .errNoMoreRows ∧
    (∀ m, Err.errNoMoreRows ≠ .scanFailure m) ∧
    (∀ m, Err.errNoMoreRows ≠ .driverErr m) ∧
    (∀ c t, Err.errNoMoreRows ≠ .missingDestinationName c t) ∧
    Err.errNoMoreRows ≠ .errExpectingPointer ∧
    Err.errNoMoreRows ≠ .errExpectingMapOrStruct ∧
    Err.errNoMoreRows ≠ .errDeprecatedJSONBTag := by
  refine ⟨?_, ?_, ?_, ?_, ?_, ?_, ?_⟩
  · simp [fetchRow, hcols, hrows, herr]
  all_goals intros; simp

/-- Witness for C5 at a concrete empty cursor. -/
theorem C5_getOne_noRows_witness :
    (fetchRow ⟨.ok ["id"], [], none⟩ .ptr (.structT [("id", ⟨[0], false⟩)])
        (.arbitraryV 3)).1 = .err .errNoMoreRows :=
  (C5_getOne_noRows ⟨.ok ["id"], [], none⟩ (.structT [("id", ⟨[0], false⟩)])
    (.arbitraryV 3) ["id"] rfl rfl rfl).1

/-- Claim C9: once `Columns` has succeeded, `fetchRow` resets the
destination to its type's zero value before advancing the cursor, so on the
no-rows error and on every later error the destination holds the zero
value, not its prior contents. -/
theorem C9_fetchRow_resets (cur : Cursor) (elemT : GoType) (prior : ItemVal)
    (cols : List String) (hcols : cur.columnsRes = .ok cols) (e : Err)
    (herr : (fetchRow cur .ptr elemT prior).1 = .err e) :
    (fetchRow cur .ptr elemT prior).2 = .zeroV elemT := by
  simp only [fetchRow, hcols] at herr ⊢
  cases hrows : cur.rows with
  | nil =>
    cases herrA : cur.errAfter <;> simp [hrows, herrA]
  | cons row rest =>
    cases hfr : fetchResult elemT cols row with
    | error e2 => simp [hrows, hfr]
    | ok item => simp [hrows, hfr] at herr

/-- Witness for C9: a cursor with a driver row-scan failure; the
destination that held arbitrary contents ends up zeroed. -/
theorem C9_fetchRow_resets_witness :
    (fetchRow ⟨.ok ["id"], [.error (.scanFailure "bad int")], none⟩ .ptr
        (.structT [("id", ⟨[0], false⟩)]) (.arbitraryV 8)).2
      = .zeroV (.structT [("id", ⟨[0], false⟩)]) :=
  C9_fetchRow_resets ⟨.ok ["id"], [.error (.scanFailure "bad int")], none⟩
    (.structT [("id", ⟨[0], false⟩)]) (.arbitraryV 8) ["id"] rfl
    (.scanFailure "bad int") (by decide)

/-- On a run that ends with `Outcome.ok`, the `fetchRows` loop appends
exactly one item per remaining row. -/
theorem fetchRowsLoop_ok_length (elemT : GoType) (cols : List String) (errAfter : Option Err) :
    ∀ (rs : List (Except Err (List Val))) (acc items : List ItemVal),
      fetchRowsLoop elemT cols errAfter rs acc = (.ok (), items) →
      items.length = acc.length + rs.length := by
  intro rs
  induction rs with
  | nil =>
    intro acc items h
    cases herrA : errAfter <;> simp [fetchRowsLoop, herrA] at h
    simp [h.symm]
  | cons r rest ih =>
    intro acc items h
    cases hfr : fetchResult elemT cols r with
    | error e => simp [fetchRowsLoop, hfr] at h
    | ok item =>
      simp only [fetchRowsLoop, hfr] at h
      have h2 := ih (acc ++ [item]) items h
      simp only [List.length_append, List.length_cons, List.length_nil] at h2 ⊢
      omega

/-- Claim C10: once `Columns` has succeeded, `fetchRows` resets the
destination slice before appending, so the final contents never depend on
the prior contents (the output replaces rather than extends them), and on
success the destination's length equals the number of rows. -/
theorem C10_fetchRows_replaces (cur : Cursor) (elemT : GoType)
    (pr1 pr2 : List ItemVal) (cols : List String)
    (hcols : cur.columnsRes = .ok cols) :
    fetchRows cur .ptrToSlice elemT pr1 = fetchRows cur .ptrToSlice elemT pr2 ∧
    (∀ items, fetchRows cur .ptrToSlice elemT pr1 = (.ok (), items) →
      items.length = cur.rows.length) := by
  constructor
  · simp [fetchRows, hcols]
  · intro items h
    simp only [fetchRows, hcols] at h
    have := fetchRowsLoop_ok_length elemT cols cur.errAfter cur.rows [] items h
    simpa using this

/-- Witness for C10: two rows, prior contents discarded, final length 2. -/
theorem C10_fetchRows_replaces_witness :
    fetchRows ⟨.ok ["id"], [.ok [.intV 1], .ok [.intV 2]], none⟩ .ptrToSlice
        (.structT [("id", ⟨[0], false⟩)]) [.arbitraryV 9]
      = fetchRows ⟨.ok ["id"], [.ok [.intV 1], .ok [.intV 2]], none⟩ .ptrToSlice
        (.structT [("id", ⟨[0], false⟩)]) [] ∧
    [ItemVal.structItem [([0], .intV 1)], ItemVal.structItem [([0], .intV 2)]].length
      = (⟨.ok ["id"], [.ok [.intV 1], .ok [.intV 2]], none⟩ : Cursor).rows.length :=
  ⟨(C10_fetchRows_replaces ⟨.ok ["id"], [.ok [.intV 1], .ok [.intV 2]], none⟩
      (.structT [("id", ⟨[0], false⟩)]) [.arbitraryV 9] [] ["id"] rfl).1,
   (C10_fetchRows_replaces ⟨.ok ["id"], [.ok [.intV 1], .ok [.intV 2]], none⟩
      (.structT [("id", ⟨[0], false⟩)]) [.arbitraryV 9] [] ["id"] rfl).2
     [.structItem [([0], .intV 1)], .structItem [([0], .intV 2)]] (by decide)⟩

/-! ## Claims about wrappers and the mapper cache -/

/-- Claim C3, counterexample: a prepared statement rebound into a
transaction through `Tx.Stmtx` does not inherit the transaction's safety
flag — the composite literal at sqlx_db.go 462 omits the `unsafe` field,
so the child's flag is `false` while the parent's is `true`. -/
theorem C3_counterexample :
    Stmtx ⟨"mysql", true, 7⟩ (.stmtP ⟨true, 7⟩) = .ok ⟨false, 7⟩ ∧
    (⟨false, 7⟩ : Stmtm).relaxedMatching ≠ (⟨"mysql", true, 7⟩ : Txm).relaxedMatching := by
  decide

/-- Claim C3 — amended: a transaction begun with `Beginx` inherits the
connection's safety flag, and a statement prepared with `Preparex` inherits
its preparer's (connection's or transaction's) flag; but a statement
derived with `Tx.Stmtx` always carries the flag `false`, whatever the
transaction's flag. -/
theorem C3_amended :
    (∀ (db : DBm) (r : Except Err Unit) (tx : Txm),
        Beginx db r = .ok tx → tx.relaxedMatching = db.relaxedMatching) ∧
    (∀ (p : PreparerM) (r : Except Err Unit) (s : Stmtm),
        Preparex p r = .ok s → s.relaxedMatching = isRelaxed p) ∧
    (∀ (tx : Txm) (a : StmtArg) (s : Stmtm),
        Stmtx tx a = .ok s → s.relaxedMatching = false) := by
  refine ⟨fun db r tx h => ?_, fun p r s h => ?_, fun tx a s h => ?_⟩
  · cases r with
    | error e => exact absurd h (by simp [Beginx])
    | ok u => simp [Beginx] at h; simp [h.symm]
  · cases r with
    | error e => exact absurd h (by simp [Preparex])
    | ok u => simp [Preparex] at h; simp [h.symm]
  · cases a <;> simp [Stmtx] at h <;> simp [h.symm]

/-- Witness for C3 (amended form) at concrete wrappers. -/
theorem C3_amended_witness :
    (⟨"d", true, 0⟩ : Txm).relaxedMatching = (⟨"d", true, 0⟩ : DBm).relaxedMatching ∧
    (⟨true, 4⟩ : Stmtm).relaxedMatching = isRelaxed (.ptx ⟨"d", true, 4⟩) ∧
    (⟨false, 5⟩ : Stmtm).relaxedMatching = false :=
  ⟨C3_amended.1 ⟨"d", true, 0⟩ (.ok ()) ⟨"d", true, 0⟩ rfl,
   C3_amended.2.1 (.ptx ⟨"d", true, 4⟩) (.ok ()) ⟨true, 4⟩ rfl,
   C3_amended.2.2 ⟨"x", true, 5⟩ .rawStmt ⟨false, 5⟩ rfl⟩

/-- Claim C8, counterexample: a change of `NameMapper` made after the
shared mapper has been built is not always detected.  Run: package init
with `strings.ToLower` (identity 0); the application sets `NameMapper` to a
custom fold (identity 1) before first use; the first `mapper()` call builds
the cache from fold 1 but leaves `origMapper` at 0; the application then
changes `NameMapper` back to fold 0.  The next `mapper()` call compares
`origMapper` (0) with `NameMapper` (0), sees no change, and serves the
cached mapper still built under fold 1 — stale, not rebuilt. -/
theorem C8_counterexample :
    (setNameMapper (mapperCall (setNameMapper (initMprState 0) 1)).1 0).nameMapper = 0 ∧
    (mapperCall (setNameMapper (mapperCall (setNameMapper (initMprState 0) 1)).1 0)).2.foldFn
      = 1 := by decide

/-- Claim C8 — amended: `mapperCall` rebuilds exactly when the current
`NameMapper` differs from the stored `origMapper`; since `origMapper` is
recorded at package init and updated only on rebuilds (not by the first
build), the claimed behaviour — change after build is detected and
rebuilt, no change returns the cached instance — holds precisely in states
where `origMapper` agrees with the fold function the cached mapper was
built under. -/
theorem C8_amended (s : MprState) (m : Mpr) (hm : s.mpr = some m)
    (horig : s.origMapper = m.foldFn) :
    (s.nameMapper ≠ m.foldFn →
      (mapperCall s).2.foldFn = s.nameMapper ∧
      (mapperCall s).1.mpr = some (mapperCall s).2 ∧
      (mapperCall s).1.origMapper = s.nameMapper) ∧
    (s.nameMapper = m.foldFn → mapperCall s = (s, m)) := by
  constructor
  · intro hne
    simp [mapperCall, hm, horig, Ne.symm hne]
  · intro heq
    simp [mapperCall, hm, horig, heq]

/-- Witness for C8 (amended form): with the cache built under fold 1 and
`origMapper` in agreement, a change to fold 2 is rebuilt from fold 2, and
no change returns the cached instance unchanged. -/
theorem C8_amended_witness :
    ((mapperCall ⟨2, 1, some ⟨0, 1⟩, 1⟩).2.foldFn = (⟨2, 1, some ⟨0, 1⟩, 1⟩ : MprState).nameMapper ∧
      (mapperCall ⟨2, 1, some ⟨0, 1⟩, 1⟩).1.mpr = some (mapperCall ⟨2, 1, some ⟨0, 1⟩, 1⟩).2 ∧
      (mapperCall ⟨2, 1, some ⟨0, 1⟩, 1⟩).1.origMapper = (⟨2, 1, some ⟨0, 1⟩, 1⟩ : MprState).nameMapper) ∧
    mapperCall ⟨1, 1, some ⟨0, 1⟩, 1⟩ = (⟨1, 1, some ⟨0, 1⟩, 1⟩, ⟨0, 1⟩) :=
  ⟨(C8_amended ⟨2, 1, some ⟨0, 1⟩, 1⟩ ⟨0, 1⟩ rfl rfl).1 (by decide),
   (C8_amended ⟨1, 1, some ⟨0, 1⟩, 1⟩ ⟨0, 1⟩ rfl rfl).2 rfl⟩

/-! ## Claims about the marshal path -/

open List

/-- The sort `sortPairs` permutes its input: `fieldValue.Swap` exchanges names and
values together, so sorting never separates a value from its name. -/
theorem sortPairs_perm (ps : List (String × Val)) : sortPairs ps ~ ps :=
  List.perm_insertionSort pairLE ps

/-- The output of `sortPairs` is sorted by column name. -/
theorem sortPairs_sorted (ps : List (String × Val)) : List.Sorted pairLE (sortPairs ps) :=
  List.sorted_insertionSort pairLE ps

/-- A name-sorted pair list with pairwise-distinct names is strictly
sorted. -/
theorem sorted_strict_of_nodup {l : List (String × Val)}
    (hs : List.Sorted pairLE l) (hnd : (l.map Prod.fst).Nodup) :
    List.Sorted pairLT l := by
  have h1 : l.Pairwise (fun p q : String × Val => p.1 ≠ q.1) :=
    (List.pairwise_map).mp hnd
  exact (hs.and h1).imp fun hpq =>
    lt_of_le_of_ne hpq.1 (fun hde => hpq.2 (String.ext hde))

/-- Two permutations of the same pair list with distinct names sort to the
same list: with distinct names only one name-sorted order exists. -/
theorem sortPairs_eq_of_perm {l1 l2 : List (String × Val)} (hp : l1 ~ l2)
    (hnd : (l1.map Prod.fst).Nodup) : sortPairs l1 = sortPairs l2 := by
  have hnd2 : (l2.map Prod.fst).Nodup := ((hp.map Prod.fst).nodup_iff).mp hnd
  have hp12 : sortPairs l1 ~ sortPairs l2 :=
    (sortPairs_perm l1).trans (hp.trans (sortPairs_perm l2).symm)
  have hA : List.Sorted pairLT (sortPairs l1) :=
    sorted_strict_of_nodup (sortPairs_sorted l1)
      (((sortPairs_perm l1).map Prod.fst).nodup_iff.mpr hnd)
  have hB : List.Sorted pairLT (sortPairs l2) :=
    sorted_strict_of_nodup (sortPairs_sorted l2)
      (((sortPairs_perm l2).map Prod.fst).nodup_iff.mpr hnd2)
  exact @List.eq_of_perm_of_sorted _ pairLT _ _ _ hp12 hA hB

/-- A permutation of the walked elements permutes the collected pairs:
if one walk order succeeds, any other succeeds with a permuted pair list. -/
theorem collectPairs_perm {α : Type} {g : α → Except Err (Option (String × Val))}
    {l1 l2 : List α} (hp : l1 ~ l2) :
    ∀ {ps : List (String × Val)}, collectPairs g l1 = .ok ps →
      ∃ qs, collectPairs g l2 = .ok qs ∧ ps ~ qs := by
  induction hp with
  | nil => exact fun h => ⟨_, h, List.Perm.refl _⟩
  | cons x p ih =>
    rename_i xs ys
    intro ps h
    simp only [collectPairs] at h ⊢
    cases hgx : g x with
    | error e => rw [hgx] at h; exact absurd h (by simp)
    | ok po =>
      rw [hgx] at h
      cases po with
      | none =>
        obtain ⟨qs, hq, hperm⟩ := ih h
        exact ⟨qs, by simp [hq], hperm⟩
      | some p0 =>
        cases hcl : collectPairs g xs with
        | error e => rw [hcl] at h; exact absurd h (by simp)
        | ok ps0 =>
          rw [hcl] at h
          obtain ⟨qs0, hq, hperm⟩ := ih hcl
          refine ⟨p0 :: qs0, by simp [hq], ?_⟩
          have hps : ps = p0 :: ps0 := by
            simpa using h.symm
          rw [hps]
          exact hperm.cons p0
  | swap x y l =>
    intro ps h
    simp only [collectPairs] at h ⊢
    revert h
    cases hgy : g y with
    | error e => intro h; simp at h
    | ok qo =>
      cases hgx : g x with
      | error e =>
        intro h
        cases qo <;> simp at h
      | ok po =>
        cases hcl : collectPairs g l with
        | error e =>
          intro h
          cases qo <;> cases po <;> simp at h
        | ok ps0 =>
          intro h
          cases qo with
          | none =>
            cases po with
            | none =>
              simp at h
              exact ⟨ps0, by simp, by rw [← h]⟩
            | some p0 =>
              simp at h
              exact ⟨p0 :: ps0, by simp, by rw [← h]⟩
          | some q0 =>
            cases po with
            | none =>
              simp at h
              exact ⟨q0 :: ps0, by simp, by rw [← h]⟩
            | some p0 =>
              simp at h
              refine ⟨p0 :: q0 :: ps0, by simp, ?_⟩
              rw [← h]
              exact List.Perm.swap p0 q0 ps0
  | trans p1 p2 ih1 ih2 =>
    intro ps h
    obtain ⟨qs, hq, hperm⟩ := ih1 h
    obtain ⟨rs, hr, hperm2⟩ := ih2 hq
    exact ⟨rs, hr, hperm.trans hperm2⟩

/-- The names of the collected pairs form a sublist of the walked names,
provided the walk body emits pairs under the element's own name. -/
theorem collectPairs_names_sublist {α : Type} {g : α → Except Err (Option (String × Val))}
    (nameOf : α → String) (hg : ∀ a p, g a = .ok (some p) → p.1 = nameOf a) :
    ∀ (l : List α) (ps : List (String × Val)), collectPairs g l = .ok ps →
      ps.map Prod.fst <+ l.map nameOf := by
  intro l
  induction l with
  | nil =>
    intro ps h
    have : ps = [] := by simpa [collectPairs] using h.symm
    simp [this]
  | cons a l ih =>
    intro ps h
    simp only [collectPairs] at h
    cases hga : g a with
    | error e => rw [hga] at h; exact absurd h (by simp)
    | ok po =>
      rw [hga] at h
      cases po with
      | none => exact (ih ps h).trans (by simp)
      | some p0 =>
        cases hcl : collectPairs g l with
        | error e => rw [hcl] at h; exact absurd h (by simp)
        | ok ps0 =>
          rw [hcl] at h
          have hps : ps = p0 :: ps0 := by simpa using h.symm
          rw [hps]
          simp only [List.map_cons]
          rw [hg a p0 hga]
          exact (ih ps0 hcl).cons₂ (nameOf a)

/-- The walk body `processField` only emits a pair under the field's own column name. -/
theorem processField_name (opts : MapOptions) (fi : FieldM) (p : String × Val)
    (h : processField opts fi = .ok (some p)) : p.1 = fi.name := by
  unfold processField at h
  cases hk : fi.fkind with
  | nilPtr =>
    rw [hk] at h
    by_cases hc : (fi.omitempty && !opts.includeNil) = true
    · simp [hc] at h
    · simp [hc] at h
      exact (congrArg Prod.fst h).symm
  | plain isZero =>
    rw [hk] at h
    by_cases hc : (isZero && fi.omitempty && !opts.includeZeroed) = true
    · simp [hc] at h
    · simp [hc] at h
      cases hm : fi.marshalled with
      | error e => rw [hm] at h; simp at h
      | ok v =>
        rw [hm] at h; simp at h
        exact (congrArg Prod.fst h).symm

/-- The walk body `mapEntry` only emits a pair under the entry's own key. -/
theorem mapEntry_name (e : String × Except Err Val) (p : String × Val)
    (h : mapEntry e = .ok (some p)) : p.1 = e.1 := by
  unfold mapEntry at h
  cases hm : e.2 with
  | error er => rw [hm] at h; simp at h
  | ok v =>
    rw [hm] at h; simp at h
    exact (congrArg Prod.fst h).symm

/-- Zipping the projected name and value columns recovers the pair list. -/
theorem zip_fst_snd (l : List (String × Val)) :
    (l.map Prod.fst).zip (l.map Prod.snd) = l := by
  induction l with
  | nil => rfl
  | cons p l ih => simp [ih]

/-- Claim C6: for every source accepted by `Map`, the returned
`(columnNames, columnValues)` pair is sorted in ascending order of column
name with each value paired with its name (the zipped output is sorted and
is a permutation of the pairs built by the walk); consequently two walks of
the same field multiset — Go iterates the field map in arbitrary order —
with pairwise-distinct column names produce identical output, for struct
sources and for map sources alike. -/
theorem C6_map_sorted_paired_deterministic :
    (∀ (src : MapSource) (o : Option MapOptions) (nm : String)
        (ns : List String) (vs : List Val) (ps : List (String × Val)),
        Map src o = .ok (nm, ns, vs) → builtPairs src o = .ok ps →
        List.Sorted pairLE (ns.zip vs) ∧ ns.zip vs ~ ps) ∧
    (∀ (tn : String) (fs fs2 : List FieldM) (o : Option MapOptions)
        (res : String × List String × List Val),
        fs ~ fs2 → (fs.map FieldM.name).Nodup →
        Map (.structS tn fs) o = .ok res → Map (.structS tn fs2) o = .ok res) ∧
    (∀ (tn : String) (es es2 : List (String × Except Err Val)) (o : Option MapOptions)
        (res : String × List String × List Val),
        es ~ es2 → (es.map Prod.fst).Nodup →
        Map (.mapS tn es) o = .ok res → Map (.mapS tn es2) o = .ok res) := by
  refine ⟨?_, ?_, ?_⟩
  · intro src o nm ns vs ps hmap hbuilt
    cases src with
    | nilSource => exact absurd hmap (by simp [Map])
    | otherKind tn k => exact absurd hmap (by simp [Map])
    | structS tn fs =>
      simp only [Map] at hmap
      simp only [builtPairs] at hbuilt
      cases hcp : collectPairs (processField (o.getD defaultMapOptions)) fs with
      | error e => rw [hcp] at hmap; exact absurd hmap (by simp)
      | ok ps2 =>
        rw [hcp] at hmap hbuilt
        have hps : ps2 = ps := by simpa using hbuilt
        have hns : ns = (sortPairs ps2).map Prod.fst := by
          have := hmap
          simp at this
          exact this.2.1.symm
        have hvs : vs = (sortPairs ps2).map Prod.snd := by
          have := hmap
          simp at this
          exact this.2.2.symm
        rw [hns, hvs, zip_fst_snd, ← hps]
        exact ⟨sortPairs_sorted ps2, sortPairs_perm ps2⟩
    | mapS tn es =>
      simp only [Map] at hmap
      simp only [builtPairs] at hbuilt
      cases hcp : collectPairs mapEntry es with
      | error e => rw [hcp] at hmap; exact absurd hmap (by simp)
      | ok ps2 =>
        rw [hcp] at hmap hbuilt
        have hps : ps2 = ps := by simpa using hbuilt
        have hns : ns = (sortPairs ps2).map Prod.fst := by
          have := hmap
          simp at this
          exact this.2.1.symm
        have hvs : vs = (sortPairs ps2).map Prod.snd := by
          have := hmap
          simp at this
          exact this.2.2.symm
        rw [hns, hvs, zip_fst_snd, ← hps]
        exact ⟨sortPairs_sorted ps2, sortPairs_perm ps2⟩
  · intro tn fs fs2 o res hperm hnd hmap
    simp only [Map] at hmap ⊢
    cases hcp : collectPairs (processField (o.getD defaultMapOptions)) fs with
    | error e => rw [hcp] at hmap; exact absurd hmap (by simp)
    | ok ps =>
      rw [hcp] at hmap
      obtain ⟨qs, hq, hpq⟩ := collectPairs_perm hperm hcp
      have hndps : (ps.map Prod.fst).Nodup :=
        (collectPairs_names_sublist FieldM.name
          (processField_name (o.getD defaultMapOptions)) fs ps hcp).nodup hnd
      have hsort : sortPairs ps = sortPairs qs := sortPairs_eq_of_perm hpq hndps
      have hres : (snakeCasedName tn, (sortPairs ps).map Prod.fst,
          (sortPairs ps).map Prod.snd) = res := Except.ok.inj hmap
      rw [hq]
      show Except.ok (snakeCasedName tn, (sortPairs qs).map Prod.fst,
        (sortPairs qs).map Prod.snd) = Except.ok res
      rw [← hsort, ← hres]
  · intro tn es es2 o res hperm hnd hmap
    simp only [Map] at hmap ⊢
    cases hcp : collectPairs mapEntry es with
    | error e => rw [hcp] at hmap; exact absurd hmap (by simp)
    | ok ps =>
      rw [hcp] at hmap
      obtain ⟨qs, hq, hpq⟩ := collectPairs_perm hperm hcp
      have hndps : (ps.map Prod.fst).Nodup :=
        (collectPairs_names_sublist Prod.fst mapEntry_name es ps hcp).nodup hnd
      have hsort : sortPairs ps = sortPairs qs := sortPairs_eq_of_perm hpq hndps
      have hres : (snakeCasedName tn, (sortPairs ps).map Prod.fst,
          (sortPairs ps).map Prod.snd) = res := Except.ok.inj hmap
      rw [hq]
      show Except.ok (snakeCasedName tn, (sortPairs qs).map Prod.fst,
        (sortPairs qs).map Prod.snd) = Except.ok res
      rw [← hsort, ← hres]

/-- Witness for C6: two iteration orders of the same two fields produce the
same name-sorted output. -/
theorem C6_map_sorted_paired_deterministic_witness :
    Map (.structS "Person" [⟨"id", false, .plain false, .ok (.intV 7)⟩,
        ⟨"name", false, .plain false, .ok (.str "ann")⟩]) none
      = .ok ("person", ["id", "name"], [.intV 7, .str "ann"]) :=
  C6_map_sorted_paired_deterministic.2.1 "Person"
    [⟨"name", false, .plain false, .ok (.str "ann")⟩, ⟨"id", false, .plain false, .ok (.intV 7)⟩]
    [⟨"id", false, .plain false, .ok (.intV 7)⟩, ⟨"name", false, .plain false, .ok (.str "ann")⟩]
    none ("person", ["id", "name"], [.intV 7, .str "ann"])
    (List.Perm.swap (⟨"id", false, .plain false, .ok (.intV 7)⟩ : FieldM)
      (⟨"name", false, .plain false, .ok (.str "ann")⟩ : FieldM) [])
    (by decide) (by decide)

/-- Claim C7: a field tagged omit-if-empty whose current value is the
type's zero value (the three-step zero test of `Map` holds and the field is
not in the separate nil-pointer branch) is excluded entirely when
`IncludeZeroed` is false and emitted with the empty-string placeholder when
`IncludeZeroed` is true, independently of `IncludeNil`; the field's
serialization hook is assumed to succeed (a hook failure aborts the whole
`Map` by design). -/
theorem C7_omission_law (tn : String) (fi : FieldM) (hz : fi.fkind = .plain true)
    (ho : fi.omitempty = true) (v : Val) (hm : fi.marshalled = .ok v) (inclNil : Bool) :
    Map (.structS tn [fi]) (some ⟨false, inclNil⟩) = .ok (snakeCasedName tn, [], []) ∧
    Map (.structS tn [fi]) (some ⟨true, inclNil⟩)
      = .ok (snakeCasedName tn, [fi.name], [.str ""]) := by
  have h1 : processField ⟨false, inclNil⟩ fi = .ok none := by
    simp [processField, hz, ho, hm]
  have h2 : processField ⟨true, inclNil⟩ fi = .ok (some (fi.name, .str "")) := by
    simp [processField, hz, ho, hm]
  constructor
  · simp [Map, collectPairs, h1, sortPairs, List.insertionSort]
  · simp [Map, collectPairs, h2, sortPairs, List.insertionSort, List.orderedInsert]

/-- Witness for C7: scenario C of the spec, `Tag string` with `omitempty`
and the empty string value. -/
theorem C7_omission_law_witness :
    Map (.structS "T" [⟨"tag", true, .plain true, .ok (.str "")⟩]) (some ⟨false, false⟩)
        = .ok ("t", [], []) ∧
    Map (.structS "T" [⟨"tag", true, .plain true, .ok (.str "")⟩]) (some ⟨true, false⟩)
        = .ok ("t", ["tag"], [.str ""]) :=
  C7_omission_law "T" ⟨"tag", true, .plain true, .ok (.str "")⟩ rfl rfl (.str "") rfl false
